import Mathlib

/-!
Shallow embedding of the transform stage of the e-commerce data pipeline
(`scripts/transform.py`): the Fact Builder `create_fact_orders` and the three
aggregate builders `create_daily_sales_summary`, `create_customer_analytics`
and `create_product_performance`, together with the pandas primitives they
rely on (left merge, groupby with NaN-key dropping, skip-NaN sums, `qcut`
quartile binning, dense ranking, half-even rounding, IEEE division).

Numeric columns are modelled over `ℚ`; columns that can hold the float
sentinels NaN/±inf (everything downstream of a left join or a division) are
modelled by the four-constructor domain `FVal`.  Tables are lists of rows,
in source order; pandas `groupby(sort=True)` key sorting is not modelled
(group keys appear in first-occurrence order), and no claim below depends
on the order of emitted rows.
-/

namespace ECom

/-- Float value domain: a finite rational, plus the IEEE sentinels
`+inf`, `-inf` and `NaN` that pandas columns can hold after a failed join
(missing value = NaN) or a division. -/
inductive FVal where
  | fin : ℚ → FVal
  | pinf : FVal
  | ninf : FVal
  | nan : FVal
deriving DecidableEq, Repr, Inhabited

namespace FVal

/-- IEEE addition on the float domain. -/
def add : FVal → FVal → FVal
  | fin a, fin b => fin (a + b)
  | fin _, pinf => pinf
  | fin _, ninf => ninf
  | pinf, fin _ => pinf
  | ninf, fin _ => ninf
  | pinf, pinf => pinf
  | ninf, ninf => ninf
  | _, _ => nan

/-- IEEE subtraction on the float domain. -/
def sub : FVal → FVal → FVal
  | fin a, fin b => fin (a - b)
  | fin _, pinf => ninf
  | fin _, ninf => pinf
  | pinf, fin _ => pinf
  | ninf, fin _ => ninf
  | pinf, ninf => pinf
  | ninf, pinf => ninf
  | _, _ => nan

/-- IEEE multiplication on the float domain. -/
def mul : FVal → FVal → FVal
  | fin a, fin b => fin (a * b)
  | fin a, pinf => if 0 < a then pinf else if a < 0 then ninf else nan
  | fin a, ninf => if 0 < a then ninf else if a < 0 then pinf else nan
  | pinf, fin b => if 0 < b then pinf else if b < 0 then ninf else nan
  | ninf, fin b => if 0 < b then ninf else if b < 0 then pinf else nan
  | pinf, pinf => pinf
  | ninf, ninf => pinf
  | pinf, ninf => ninf
  | ninf, pinf => ninf
  | _, _ => nan

/-- IEEE division on the float domain: dividing a nonzero finite value by
zero yields a signed infinity (numpy emits a warning, not an exception),
`0/0` yields NaN. -/
def div : FVal → FVal → FVal
  | fin a, fin b =>
      if b = 0 then (if 0 < a then pinf else if a < 0 then ninf else nan)
      else fin (a / b)
  | fin _, pinf => fin 0
  | fin _, ninf => fin 0
  | pinf, fin b => if 0 ≤ b then pinf else ninf
  | ninf, fin b => if 0 ≤ b then ninf else pinf
  | _, _ => nan

/-- Strict order used by pandas `rank`: NaN is incomparable. -/
def flt : FVal → FVal → Bool
  | fin a, fin b => decide (a < b)
  | fin _, pinf => true
  | ninf, fin _ => true
  | ninf, pinf => true
  | _, _ => false

end FVal

/-- Round a rational to the nearest integer, ties to even
(the rounding mode of `numpy.round`). -/
def roundHE (q : ℚ) : ℤ :=
  if q - ⌊q⌋ = 1 / 2 then (if 2 ∣ ⌊q⌋ then ⌊q⌋ else ⌊q⌋ + 1) else round q

/-- `Series.round(2)`: round to two decimal places, half to even. -/
def round2 (q : ℚ) : ℚ := (roundHE (q * 100) : ℚ) / 100

/-- `round(2)` on the float domain: the sentinels are fixed points. -/
def FVal.round2 : FVal → FVal
  | fin a => fin (ECom.round2 a)
  | v => v

/-- `Series.sum()` with pandas' default `skipna=True`: NaN elements are
skipped, infinities propagate (and `+inf + -inf` produces NaN). -/
def fsum (l : List FVal) : FVal :=
  l.foldr (fun v acc => if v = .nan then acc else v.add acc) (.fin 0)

/-! ### Input row types (columns as generated by `extract.py`) -/

/-- One row of `orders.csv`. -/
structure OrderRow where
  order_id : Nat
  customer_id : Nat
  product_id : Nat
  order_date : Nat
  quantity : ℚ
  unit_price : ℚ
  item_total : ℚ
  status : String
  payment_method : String
  discount_amount : ℚ
deriving DecidableEq, Repr, Inhabited

/-- One row of `products.csv`. -/
structure ProductRow where
  product_id : Nat
  name : String
  category : String
  brand : String
  price : ℚ
  cost : ℚ
  stock_quantity : ℚ
  created_date : Nat
deriving DecidableEq, Repr, Inhabited

/-- One row of `customers.csv`. -/
structure CustomerRow where
  customer_id : Nat
  name : String
  email : String
  city : String
  age_group : String
  signup_date : Nat
  customer_segment : String
deriving DecidableEq, Repr, Inhabited

/-! ### Fact Builder (`create_fact_orders`, transform.py lines 38-71)

`orders.merge(dims, on=key, how='left')` keeps every left row in order;
a left row with `m` key matches on the right appears `m` times (once with
each match), and a left row with no match appears once with the joined
columns set to missing (NaN for numeric columns, None for objects). -/

/-- One row of the fact table `fact_orders`.  The calendar columns
(year, month, quarter, day-of-week, ISO week, weekend flag) derived from
`order_date` are not modelled: no claim mentions them and they feed no
other column. -/
structure FactRow where
  order_id : Nat
  customer_id : Nat
  product_id : Nat
  order_date : Nat
  quantity : ℚ
  unit_price : ℚ
  item_total : ℚ
  status : String
  payment_method : String
  discount_amount : ℚ
  product_name : Option String
  category : Option String
  brand : Option String
  cost : FVal
  city : Option String
  age_group : Option String
  customer_segment : Option String
  gross_profit : FVal
  net_profit : FVal
  profit_margin : FVal
  revenue_after_discount : ℚ
deriving DecidableEq, Repr, Inhabited

/-- All right-table rows matching a key: `products_df` rows with the given
`product_id` (the comparison pandas `merge` performs). -/
def lookupProducts (products : List ProductRow) (pid : Nat) : List ProductRow :=
  products.filter (fun p => decide (p.product_id = pid))

/-- All `customers_df` rows with the given `customer_id`. -/
def lookupCustomers (customers : List CustomerRow) (cid : Nat) : List CustomerRow :=
  customers.filter (fun c => decide (c.customer_id = cid))

/-- Order row joined with the (optional) matched product and customer rows,
then the derived metric columns of transform.py lines 57-60, computed
row-wise.  A missing product match leaves `product_name`/`category`/`brand`
as None and `cost` as NaN, so `gross_profit`/`net_profit`/`profit_margin`
are NaN on such rows; a missing customer match leaves the three customer
attribute columns None. -/
def mkFactRow (o : OrderRow) (p : Option ProductRow) (c : Option CustomerRow) : FactRow :=
  let cost : FVal := match p with | some pr => .fin pr.cost | none => .nan
  let gross := ((FVal.fin o.unit_price).sub cost).mul (.fin o.quantity)
  let net := gross.sub (.fin o.discount_amount)
  { order_id := o.order_id
    customer_id := o.customer_id
    product_id := o.product_id
    order_date := o.order_date
    quantity := o.quantity
    unit_price := o.unit_price
    item_total := o.item_total
    status := o.status
    payment_method := o.payment_method
    discount_amount := o.discount_amount
    product_name := p.map (·.name)
    category := p.map (·.category)
    brand := p.map (·.brand)
    cost := cost
    city := c.map (·.city)
    age_group := c.map (·.age_group)
    customer_segment := c.map (·.customer_segment)
    gross_profit := gross
    net_profit := net
    profit_margin := ((net.div (.fin o.item_total)).mul (.fin 100)).round2
    revenue_after_discount := o.item_total - o.discount_amount }

/-- `create_fact_orders(orders_df, products_df, customers_df)`:
left-merge orders with the product dimensions on `product_id`, left-merge
the result with the customer dimensions on `customer_id`, then derive the
per-row business metrics. -/
def create_fact_orders (orders : List OrderRow) (products : List ProductRow)
    (customers : List CustomerRow) : List FactRow :=
  orders.flatMap (fun o =>
    let prodMatches := lookupProducts products o.product_id
    let custMatches := lookupCustomers customers o.customer_id
    let withP : List (Option ProductRow) :=
      match prodMatches with
      | [] => [none]
      | ms => ms.map some
    let withC : List (Option CustomerRow) :=
      match custMatches with
      | [] => [none]
      | ms => ms.map some
    withP.flatMap (fun p => withC.map (fun c => mkFactRow o p c)))

/-! ### Daily Summary Builder (`create_daily_sales_summary`, lines 73-98)

pandas `groupby` defaults to `dropna=True`: a row whose grouping key
contains a missing value (here: `category` is NaN because the product
join found no match) belongs to no group and is silently excluded. -/

/-- One row of `daily_sales_summary`.  `category` is always `some _`
(NaN keys are dropped), kept as `Option String` because it is the fact
column carried through `reset_index`. -/
structure DailyRow where
  order_date : Nat
  category : Option String
  total_revenue : ℚ
  revenue_after_discount : ℚ
  net_profit : FVal
  gross_profit : FVal
  total_discount : ℚ
  total_quantity : ℚ
  unique_orders : Nat
  unique_customers : Nat
  profit_margin : FVal
  average_order_value : FVal
deriving DecidableEq, Repr, Inhabited

/-- Fact rows that survive the `(order_date, category)` groupby:
`order_date` is never missing, so only a missing `category` drops a row. -/
def keptDaily (F : List FactRow) : List FactRow :=
  F.filter (fun r => r.category.isSome)

/-- The grouping key of the daily summary. -/
def dailyKey (r : FactRow) : Nat × Option String := (r.order_date, r.category)

/-- `create_daily_sales_summary(fact_orders)`: group by
`(order_date, category)`, aggregate with `.round(2)`, then derive
`profit_margin` and `average_order_value`. -/
def create_daily_sales_summary (F : List FactRow) : List DailyRow :=
  let kept := keptDaily F
  let keys := (kept.map dailyKey).dedup
  keys.map (fun k =>
    let g := kept.filter (fun r => decide (dailyKey r = k))
    let total_revenue := round2 ((g.map (·.item_total)).sum)
    let net_profit := (fsum (g.map (·.net_profit))).round2
    let unique_orders := ((g.map (·.order_id)).dedup).length
    { order_date := k.1
      category := k.2
      total_revenue := total_revenue
      revenue_after_discount := round2 ((g.map (·.revenue_after_discount)).sum)
      net_profit := net_profit
      gross_profit := (fsum (g.map (·.gross_profit))).round2
      total_discount := round2 ((g.map (·.discount_amount)).sum)
      total_quantity := round2 ((g.map (·.quantity)).sum)
      unique_orders := unique_orders
      unique_customers := ((g.map (·.customer_id)).dedup).length
      profit_margin := ((net_profit.div (.fin total_revenue)).mul (.fin 100)).round2
      average_order_value := ((FVal.fin total_revenue).div (.fin (unique_orders : ℚ))).round2 })

/-! ### Customer Analytics Builder (`create_customer_analytics`, lines 100-149)

`pd.qcut(series, q=4, labels=[...])` computes the 0/25/50/75/100 percent
quantiles of the series by linear interpolation on the sorted values
(pandas' default `interpolation='linear'`; the quantiles of an empty
series are NaN), collapses NaN edges like `pandas.unique` does, and with
the default `duplicates='raise'` raises `ValueError: Bin edges must be
unique` when edges coincide.  Otherwise each value `v` falls in bucket
`i` where `bins[i-1] < v ≤ bins[i]` (the minimum goes to bucket 1). -/

/-- The four `ltv_segment` labels passed to `pd.qcut`. -/
inductive Label where
  | Low : Label
  | Medium : Label
  | High : Label
  | Premium : Label
deriving DecidableEq, Repr, Inhabited

/-- Insert into a sorted list (ascending). -/
def insertSorted (x : ℚ) : List ℚ → List ℚ
  | [] => [x]
  | y :: ys => if x ≤ y then x :: y :: ys else y :: insertSorted x ys

/-- Sort ascending (insertion sort; only used on concrete data). -/
def sortQ (l : List ℚ) : List ℚ := l.foldr insertSorted []

/-- Linear-interpolation quantile of a sorted list, pandas
`interpolation='linear'`; `none` models the NaN quantile of an empty
series. -/
def interpQuantile (s : List ℚ) (q : ℚ) : Option ℚ :=
  match s with
  | [] => none
  | _ =>
    let h : ℚ := q * ((s.length : ℚ) - 1)
    let i : ℕ := (⌊h⌋).toNat
    let lo := s.getD i 0
    let hi := s.getD (i + 1) lo
    some (lo + (h - (⌊h⌋ : ℚ)) * (hi - lo))

/-- The five quartile bin edges `pd.qcut(values, q=4)` computes. -/
def qcutBins (vals : List ℚ) : List (Option ℚ) :=
  let s := sortQ vals
  [interpQuantile s 0, interpQuantile s (1 / 4), interpQuantile s (1 / 2),
   interpQuantile s (3 / 4), interpQuantile s 1]

/-- `pd.qcut(values, q=4, labels=['Low','Medium','High','Premium'])` with
the default `duplicates='raise'`: error out when the bin edges are not
unique (pandas' uniqueness test treats all NaNs as one value, which
`List.dedup` on `Option ℚ` reproduces), else label every value. -/
def qcut4 (vals : List ℚ) : Except String (List Label) :=
  let bins := qcutBins vals
  if bins.dedup.length < bins.length then .error "Bin edges must be unique"
  else
    match bins with
    | [_, some b1, some b2, some b3, _] =>
        .ok (vals.map (fun v =>
          if v ≤ b1 then .Low else if v ≤ b2 then .Medium
          else if v ≤ b3 then .High else .Premium))
    | _ => .error "Bin edges must be unique"

/-- One row of `customer_analytics`. -/
structure CARow where
  customer_id : Nat
  total_spent : ℚ
  avg_order_value : ℚ
  total_orders : Nat
  total_profit_generated : FVal
  first_order_date : Nat
  last_order_date : Nat
  unique_orders : Nat
  total_items_bought : ℚ
  city : Option String
  age_group : Option String
  customer_segment : Option String
  signup_date : Option Nat
  days_to_first_order : Option Int
  customer_lifetime_days : Int
  ltv_segment : Label
deriving DecidableEq, Repr, Inhabited

/-- `create_customer_analytics(fact_orders, customers_df)`: group the fact
table by `customer_id` (never missing, so no row is dropped), aggregate
with `.round(2)`, left-merge the customer master attributes, derive the
date-difference columns, then assign `ltv_segment` by `pd.qcut` on
`total_spent` — raising when the quartile bin edges are not unique.
The `ltv_segment` of the intermediate rows is a placeholder overwritten
by the final column assignment. -/
def create_customer_analytics (F : List FactRow) (customers : List CustomerRow) :
    Except String (List CARow) :=
  let keys := (F.map (·.customer_id)).dedup
  let merged := keys.flatMap (fun cid =>
    let g := F.filter (fun r => decide (r.customer_id = cid))
    let total_spent := round2 ((g.map (·.item_total)).sum)
    let first_order := ((g.map (·.order_date)).min?).getD 0
    let last_order := ((g.map (·.order_date)).max?).getD 0
    let mk : Option CustomerRow → CARow := fun c =>
      { customer_id := cid
        total_spent := total_spent
        avg_order_value := round2 (((g.map (·.item_total)).sum) / (g.length : ℚ))
        total_orders := g.length
        total_profit_generated := (fsum (g.map (·.net_profit))).round2
        first_order_date := first_order
        last_order_date := last_order
        unique_orders := ((g.map (·.order_id)).dedup).length
        total_items_bought := round2 ((g.map (·.quantity)).sum)
        city := c.map (·.city)
        age_group := c.map (·.age_group)
        customer_segment := c.map (·.customer_segment)
        signup_date := c.map (·.signup_date)
        days_to_first_order := c.map (fun cr => (first_order : Int) - cr.signup_date)
        customer_lifetime_days := (last_order : Int) - first_order
        ltv_segment := .Low }
    match lookupCustomers customers cid with
    | [] => [mk none]
    | ms => ms.map (fun c => mk (some c)))
  match qcut4 (merged.map (·.total_spent)) with
  | .error e => .error e
  | .ok labels =>
      .ok ((merged.zip labels).map (fun rl => { rl.1 with ltv_segment := rl.2 }))

/-! ### Product Performance Builder (`create_product_performance`, lines 151-185)

`Series.rank(method='dense', ascending=False)`: the rank of a non-NaN
value `v` is one plus the number of distinct non-NaN values strictly
greater than `v`; NaN values get a NaN rank (default `na_option='keep'`). -/

/-- One row of `product_performance`.  The metric and rank columns are
assigned after the master-data merge, mirroring the sequential column
assignments of lines 176-182; their values in intermediate rows are
placeholders overwritten before the table is returned. -/
structure PPRow where
  product_id : Nat
  category : Option String
  brand : Option String
  total_revenue : ℚ
  total_profit : FVal
  total_quantity_sold : ℚ
  unique_orders : Nat
  unique_customers : Nat
  name : Option String
  price : FVal
  cost : FVal
  stock_quantity : FVal
  profit_margin : FVal
  avg_selling_price : FVal
  inventory_turnover : FVal
  revenue_rank : Nat
  profit_rank : Option Nat
deriving DecidableEq, Repr, Inhabited

/-- Fact rows that survive the `(product_id, category, brand)` groupby:
`product_id` is never missing; `category`/`brand` are missing exactly when
the product join found no match, and such rows are dropped. -/
def keptPP (F : List FactRow) : List FactRow :=
  F.filter (fun r => r.category.isSome && r.brand.isSome)

/-- The grouping key of the product performance table. -/
def ppKey (r : FactRow) : Nat × Option String × Option String :=
  (r.product_id, r.category, r.brand)

/-- Dense descending rank of `v` within the column `vals`
(`rank(method='dense', ascending=False)` on a NaN-free column). -/
def denseRankDesc (vals : List ℚ) (v : ℚ) : Nat :=
  1 + vals.dedup.countP (fun w => decide (v < w))

/-- Dense descending rank on a float column: NaN keeps a missing rank,
other values are ranked against the distinct non-NaN values. -/
def denseRankDescF (vals : List FVal) (v : FVal) : Option Nat :=
  if v = .nan then none
  else some (1 + ((vals.filter (fun w => decide (w ≠ FVal.nan))).dedup).countP (fun w => v.flt w))

/-- Lines 156-178 of `create_product_performance`: group by
`(product_id, category, brand)`, aggregate with `.round(2)`, left-merge
the product master columns and derive margin/price/turnover — everything
before the rank assignments. -/
def productPerfMerged (F : List FactRow) (products : List ProductRow) : List PPRow :=
  let kept := keptPP F
  let keys := (kept.map ppKey).dedup
  let base : List PPRow := keys.map (fun k =>
    let g := kept.filter (fun r => decide (ppKey r = k))
    { product_id := k.1
      category := k.2.1
      brand := k.2.2
      total_revenue := round2 ((g.map (·.item_total)).sum)
      total_profit := (fsum (g.map (·.net_profit))).round2
      total_quantity_sold := round2 ((g.map (·.quantity)).sum)
      unique_orders := ((g.map (·.order_id)).dedup).length
      unique_customers := ((g.map (·.customer_id)).dedup).length
      name := none, price := .nan, cost := .nan, stock_quantity := .nan
      profit_margin := .nan, avg_selling_price := .nan, inventory_turnover := .nan
      revenue_rank := 0, profit_rank := none })
  let merged := base.flatMap (fun b =>
    match lookupProducts products b.product_id with
    | [] => [{ b with name := none, price := FVal.nan, cost := FVal.nan,
                      stock_quantity := FVal.nan }]
    | ms => ms.map (fun p => { b with name := some p.name, price := FVal.fin p.price,
                                      cost := FVal.fin p.cost,
                                      stock_quantity := FVal.fin p.stock_quantity }))
  merged.map (fun r =>
    { r with
      profit_margin := ((r.total_profit.div (.fin r.total_revenue)).mul (.fin 100)).round2
      avg_selling_price := ((FVal.fin r.total_revenue).div (.fin r.total_quantity_sold)).round2
      inventory_turnover := ((FVal.fin r.total_quantity_sold).div r.stock_quantity).round2 })

/-- Lines 181-182 of `create_product_performance`: assign the dense
descending revenue and profit ranks, each computed against its whole
column. -/
def addDenseRanks (M : List PPRow) : List PPRow :=
  let revs := M.map (·.total_revenue)
  let profits := M.map (·.total_profit)
  M.map (fun r =>
    { r with revenue_rank := denseRankDesc revs r.total_revenue
             profit_rank := denseRankDescF profits r.total_profit })

/-- `create_product_performance(fact_orders, products_df)`: the metric
stage followed by the rank stage. -/
def create_product_performance (F : List FactRow) (products : List ProductRow) :
    List PPRow :=
  addDenseRanks (productPerfMerged F products)

/-! ### Helper instances and lemmas -/

instance {ε α : Type} [DecidableEq ε] [DecidableEq α] : DecidableEq (Except ε α) := fun a b =>
  match a, b with
  | .ok x, .ok y =>
      if h : x = y then .isTrue (by rw [h]) else .isFalse (fun he => by cases he; exact h rfl)
  | .error x, .error y =>
      if h : x = y then .isTrue (by rw [h]) else .isFalse (fun he => by cases he; exact h rfl)
  | .ok _, .error _ => .isFalse (fun he => by cases he)
  | .error _, .ok _ => .isFalse (fun he => by cases he)

section Verification

attribute [local semireducible] Rat.add Rat.mul Rat.sub Rat.inv Rat.ofScientific

/-- Finite FVal subtraction computes the rational difference. -/
theorem FVal.sub_fin (a b : ℚ) : (FVal.fin a).sub (FVal.fin b) = FVal.fin (a - b) := rfl

/-- Finite FVal multiplication computes the rational product. -/
theorem FVal.mul_fin (a b : ℚ) : (FVal.fin a).mul (FVal.fin b) = FVal.fin (a * b) := rfl

/-- Every row of the fact table is the join-and-derive image of some order
row with an optional product match and an optional customer match. -/
theorem mem_fact_shape {orders : List OrderRow} {products : List ProductRow}
    {customers : List CustomerRow} {r : FactRow}
    (h : r ∈ create_fact_orders orders products customers) :
    ∃ o p c, r = mkFactRow o p c := by
  unfold create_fact_orders at h
  obtain ⟨o, -, h⟩ := List.mem_flatMap.mp h
  obtain ⟨p, -, h⟩ := List.mem_flatMap.mp h
  obtain ⟨c, -, h⟩ := List.mem_map.mp h
  exact ⟨o, p, c, h.symm⟩

/-- Concrete tables used by witness theorems: one order for one product by
one customer, plus a second order of a different product. -/
def oW1 : OrderRow :=
  { order_id := 1, customer_id := 1, product_id := 1, order_date := 0,
    quantity := 2, unit_price := 10, item_total := 20, status := "completed",
    payment_method := "UPI", discount_amount := 1 }

/-- Second concrete order (different product, different customer). -/
def oW2 : OrderRow :=
  { order_id := 2, customer_id := 2, product_id := 2, order_date := 0,
    quantity := 1, unit_price := 50, item_total := 50, status := "completed",
    payment_method := "COD", discount_amount := 0 }

/-- Concrete product row matched by `oW1`. -/
def pW1 : ProductRow :=
  { product_id := 1, name := "P1", category := "Books", brand := "B1",
    price := 10, cost := 4, stock_quantity := 0, created_date := 0 }

/-- Concrete product row matched by `oW2`. -/
def pW2 : ProductRow :=
  { product_id := 2, name := "P2", category := "Sports", brand := "B2",
    price := 50, cost := 20, stock_quantity := 5, created_date := 0 }

/-- Concrete customer row matched by `oW1`. -/
def cW1 : CustomerRow :=
  { customer_id := 1, name := "C1", email := "c1@x", city := "Pune",
    age_group := "18-25", signup_date := 0, customer_segment := "Regular" }

/-- Concrete customer row matched by `oW2`. -/
def cW2 : CustomerRow :=
  { customer_id := 2, name := "C2", email := "c2@x", city := "Delhi",
    age_group := "26-35", signup_date := 0, customer_segment := "Premium" }

/-- The concrete fact table built from the witness inputs. -/
def factW : List FactRow := create_fact_orders [oW1, oW2] [pW1, pW2] [cW1, cW2]

/-- Its first row. -/
def factW0 : FactRow := factW.headD default

/-- Claim C6: for every row of the fact table produced by the Fact Builder
whose joined `cost` is present (the product matched), `gross_profit`
equals `(unit_price - cost) * quantity` and `net_profit` equals
`gross_profit - discount_amount`, both pure row-wise functions of the
row's own columns. -/
theorem c6_profit_formulas (orders : List OrderRow) (products : List ProductRow)
    (customers : List CustomerRow) (r : FactRow)
    (hr : r ∈ create_fact_orders orders products customers) (c : ℚ)
    (hc : r.cost = FVal.fin c) :
    r.gross_profit = FVal.fin ((r.unit_price - c) * r.quantity) ∧
    r.net_profit = FVal.fin ((r.unit_price - c) * r.quantity - r.discount_amount) := by
  obtain ⟨o, p, cu, rfl⟩ := mem_fact_shape hr
  cases p with
  | none => simp [mkFactRow] at hc
  | some pr =>
      have hcc : c = pr.cost := by
        have : FVal.fin pr.cost = FVal.fin c := hc
        cases this; rfl
      subst hcc
      exact ⟨rfl, rfl⟩

/-- Witness for C6 at the concrete two-order pipeline: the first fact row
has cost 4, gross profit (10-4)*2 = 12 and net profit 12-1 = 11. -/
theorem c6_profit_formulas_witness :
    factW0.gross_profit = FVal.fin ((factW0.unit_price - 4) * factW0.quantity) ∧
    factW0.net_profit = FVal.fin ((factW0.unit_price - 4) * factW0.quantity -
      factW0.discount_amount) :=
  c6_profit_formulas [oW1, oW2] [pW1, pW2] [cW1, cW2] factW0 (by decide) 4 (by decide)

/-- Claim C7: for every row of the fact table produced by the Fact Builder,
`revenue_after_discount + discount_amount` equals `item_total` within the
0.01 tolerance (in the exact rational model the identity is exact). -/
theorem c7_revenue_after_discount (orders : List OrderRow) (products : List ProductRow)
    (customers : List CustomerRow) (r : FactRow)
    (hr : r ∈ create_fact_orders orders products customers) :
    |r.revenue_after_discount + r.discount_amount - r.item_total| ≤ 1 / 100 := by
  obtain ⟨o, p, cu, rfl⟩ := mem_fact_shape hr
  have : (mkFactRow o p cu).revenue_after_discount = o.item_total - o.discount_amount := rfl
  simp only [this, mkFactRow]
  norm_num

/-- Witness for C7 at the concrete two-order pipeline. -/
theorem c7_revenue_after_discount_witness :
    |factW0.revenue_after_discount + factW0.discount_amount - factW0.item_total| ≤ 1 / 100 :=
  c7_revenue_after_discount [oW1, oW2] [pW1, pW2] [cW1, cW2] factW0 (by decide)

/-- When the key column of a table is duplicate-free, filtering by a key
value finds at most one row: the filter agrees with `find?`. -/
theorem filter_key_nodup {α κ : Type} [DecidableEq κ] (key : α → κ) :
    ∀ (l : List α), (l.map key).Nodup → ∀ k,
      l.filter (fun a => decide (key a = k)) = (l.find? (fun a => decide (key a = k))).toList := by
  intro l
  induction l with
  | nil => intro _ k; rfl
  | cons a t ih =>
      intro hn k
      rw [List.map_cons, List.nodup_cons] at hn
      by_cases hk : key a = k
      · have ht : t.filter (fun x => decide (key x = k)) = [] := by
          rw [List.filter_eq_nil_iff]
          intro x hx
          simp only [decide_eq_true_eq]
          intro hkx
          exact hn.1 (hk ▸ hkx ▸ List.mem_map_of_mem key hx)
        simp [List.filter_cons, List.find?_cons, hk, ht]
      · simp only [List.filter_cons, List.find?_cons, hk, decide_eq_true_eq, if_neg,
          decide_eq_false_iff_not.mpr hk, Bool.false_eq_true]
        exact ih hn.2 k

/-- With duplicate-free reference keys, the Fact Builder is exactly a map
over the orders: each order row yields one fact row, joined with the unique
product and customer match found by `find?` (or with `none`). -/
theorem create_fact_eq_map (orders : List OrderRow) (products : List ProductRow)
    (customers : List CustomerRow)
    (hp : (products.map (·.product_id)).Nodup)
    (hc : (customers.map (·.customer_id)).Nodup) :
    create_fact_orders orders products customers =
      orders.map (fun o => mkFactRow o
        (products.find? (fun p => decide (p.product_id = o.product_id)))
        (customers.find? (fun c => decide (c.customer_id = o.customer_id)))) := by
  unfold create_fact_orders
  induction orders with
  | nil => rfl
  | cons o t ih =>
      rw [List.flatMap_cons, List.map_cons, ih]
      have hp' := filter_key_nodup (fun p : ProductRow => p.product_id) products hp o.product_id
      have hc' := filter_key_nodup (fun c : CustomerRow => c.customer_id) customers hc o.customer_id
      simp only [lookupProducts, lookupCustomers]
      rw [hp', hc']
      cases products.find? (fun p => decide (p.product_id = o.product_id)) with
      | none =>
          cases customers.find? (fun c => decide (c.customer_id = o.customer_id)) with
          | none => rfl
          | some c => rfl
      | some p =>
          cases customers.find? (fun c => decide (c.customer_id = o.customer_id)) with
          | none => rfl
          | some c => rfl

/-- Claim C2: when the reference-table join keys are unique, the fact table
has exactly one row per input order (row count preserved); an order whose
product key has no match keeps its row with missing product attributes,
and likewise for an unmatched customer key. -/
theorem c2_left_join_row_count (orders : List OrderRow) (products : List ProductRow)
    (customers : List CustomerRow)
    (hp : (products.map (·.product_id)).Nodup)
    (hc : (customers.map (·.customer_id)).Nodup) :
    (create_fact_orders orders products customers).length = orders.length ∧
    ∀ i (hi : i < orders.length),
      ∃ hj : i < (create_fact_orders orders products customers).length,
        ((create_fact_orders orders products customers).get ⟨i, hj⟩).order_id =
          (orders.get ⟨i, hi⟩).order_id ∧
        ((create_fact_orders orders products customers).get ⟨i, hj⟩).item_total =
          (orders.get ⟨i, hi⟩).item_total ∧
        (lookupProducts products (orders.get ⟨i, hi⟩).product_id = [] →
          ((create_fact_orders orders products customers).get ⟨i, hj⟩).product_name = none ∧
          ((create_fact_orders orders products customers).get ⟨i, hj⟩).category = none ∧
          ((create_fact_orders orders products customers).get ⟨i, hj⟩).brand = none ∧
          ((create_fact_orders orders products customers).get ⟨i, hj⟩).cost = FVal.nan) ∧
        (lookupCustomers customers (orders.get ⟨i, hi⟩).customer_id = [] →
          ((create_fact_orders orders products customers).get ⟨i, hj⟩).city = none ∧
          ((create_fact_orders orders products customers).get ⟨i, hj⟩).age_group = none ∧
          ((create_fact_orders orders products customers).get ⟨i, hj⟩).customer_segment = none) := by
  have hmap := create_fact_eq_map orders products customers hp hc
  constructor
  · rw [hmap, List.length_map]
  · intro i hi
    have hj : i < (create_fact_orders orders products customers).length := by
      rw [hmap, List.length_map]; exact hi
    refine ⟨hj, ?_⟩
    have hget : (create_fact_orders orders products customers).get ⟨i, hj⟩ =
        mkFactRow (orders.get ⟨i, hi⟩)
          (products.find? (fun p => decide (p.product_id = (orders.get ⟨i, hi⟩).product_id)))
          (customers.find? (fun c => decide (c.customer_id = (orders.get ⟨i, hi⟩).customer_id))) := by
      have := List.get_of_eq hmap ⟨i, hj⟩
      rw [this]
      simp [List.get_eq_getElem, List.getElem_map]
    rw [hget]
    refine ⟨rfl, rfl, ?_, ?_⟩
    · intro hnone
      have : products.find? (fun p => decide (p.product_id = (orders.get ⟨i, hi⟩).product_id))
          = none := by
        have h2 := filter_key_nodup (fun p : ProductRow => p.product_id) products hp
          (orders.get ⟨i, hi⟩).product_id
        have hnone' : products.filter
            (fun p => decide (p.product_id = (orders.get ⟨i, hi⟩).product_id)) = [] := hnone
        rw [hnone'] at h2
        cases hfind : products.find?
            (fun p => decide (p.product_id = (orders.get ⟨i, hi⟩).product_id)) with
        | none => rfl
        | some p => rw [hfind] at h2; cases h2
      rw [this]
      exact ⟨rfl, rfl, rfl, rfl⟩
    · intro hnone
      have : customers.find? (fun c => decide (c.customer_id = (orders.get ⟨i, hi⟩).customer_id))
          = none := by
        have h2 := filter_key_nodup (fun c : CustomerRow => c.customer_id) customers hc
          (orders.get ⟨i, hi⟩).customer_id
        have hnone' : customers.filter
            (fun c => decide (c.customer_id = (orders.get ⟨i, hi⟩).customer_id)) = [] := hnone
        rw [hnone'] at h2
        cases hfind : customers.find?
            (fun c => decide (c.customer_id = (orders.get ⟨i, hi⟩).customer_id)) with
        | none => rfl
        | some c => rw [hfind] at h2; cases h2
      rw [this]
      cases products.find? (fun p => decide (p.product_id = (orders.get ⟨i, hi⟩).product_id)) with
      | none => exact ⟨rfl, rfl, rfl⟩
      | some p => exact ⟨rfl, rfl, rfl⟩

/-- Witness for C2: the two-order pipeline keeps both rows, and an orders
table joined against empty reference tables also keeps its row. -/
theorem c2_left_join_row_count_witness :
    (create_fact_orders [oW1, oW2] [pW1, pW2] [cW1, cW2]).length = [oW1, oW2].length ∧
    (create_fact_orders [oW1] [] ([] : List CustomerRow)).length = [oW1].length :=
  ⟨(c2_left_join_row_count [oW1, oW2] [pW1, pW2] [cW1, cW2] (by decide) (by decide)).1,
   (c2_left_join_row_count [oW1] [] [] (by decide) (by decide)).1⟩

/-- A rational that is a whole number of hundredths (currency cents), as
every `item_total` produced by `extract.py`'s `round(item_total, 2)` is. -/
def IsCent (q : ℚ) : Prop := ∃ n : ℤ, q * 100 = n

/-- Half-even rounding fixes integers. -/
theorem roundHE_intCast (n : ℤ) : roundHE (n : ℚ) = n := by
  unfold roundHE
  rw [Int.floor_intCast n, sub_self, if_neg (by norm_num), round_intCast]

/-- Rounding to two decimals fixes whole-cent amounts. -/
theorem round2_isCent {q : ℚ} (h : IsCent q) : round2 q = q := by
  obtain ⟨n, hn⟩ := h
  unfold round2
  rw [hn, roundHE_intCast, ← hn]
  exact mul_div_cancel_right₀ q (by norm_num)

/-- A sum of whole-cent amounts is a whole-cent amount. -/
theorem isCent_sum {l : List ℚ} (h : ∀ x ∈ l, IsCent x) : IsCent l.sum := by
  induction l with
  | nil => exact ⟨0, by norm_num⟩
  | cons a t ih =>
      obtain ⟨n, hn⟩ := h a (List.mem_cons_self a t)
      obtain ⟨m, hm⟩ := ih (fun x hx => h x (List.mem_cons_of_mem a hx))
      exact ⟨n + m, by rw [List.sum_cons, add_mul, hn, hm]; push_cast; ring⟩

/-- Summing a per-key quantity where exactly the key `k0` gains `c`. -/
theorem sum_map_congr_add {κ : Type} (K : List κ) (hK : K.Nodup) (k0 : κ) (hk : k0 ∈ K)
    (f g : κ → ℚ) (c : ℚ) (h0 : f k0 = c + g k0)
    (hrest : ∀ k ∈ K, k ≠ k0 → f k = g k) :
    (K.map f).sum = c + (K.map g).sum := by
  induction K with
  | nil => cases hk
  | cons k K ih =>
      rw [List.nodup_cons] at hK
      rcases List.mem_cons.mp hk with heq | hmem
      · subst heq
        rw [List.map_cons, List.map_cons, List.sum_cons, List.sum_cons, h0]
        have hmap : K.map f = K.map g :=
          List.map_congr_left (fun x hx =>
            hrest x (List.mem_cons_of_mem _ hx) (fun he => hK.1 (he ▸ hx)))
        rw [hmap]; ring
      · have hne : k ≠ k0 := fun he => hK.1 (he ▸ hmem)
        rw [List.map_cons, List.map_cons, List.sum_cons, List.sum_cons,
          hrest k (List.mem_cons_self _ _) hne,
          ih hK.2 hmem (fun x hx hxe => hrest x (List.mem_cons_of_mem _ hx) hxe)]
        ring

/-- Group-then-sum over a duplicate-free key cover equals the plain sum:
the groupby partition loses nothing. -/
theorem sum_groupby {α κ : Type} [DecidableEq κ] (key : α → κ) (g : α → ℚ) :
    ∀ (l : List α) (K : List κ), K.Nodup → (∀ a ∈ l, key a ∈ K) →
      (K.map (fun k => ((l.filter (fun a => decide (key a = k))).map g).sum)).sum
        = (l.map g).sum := by
  intro l
  induction l with
  | nil =>
      intro K _ _
      rw [List.map_nil, List.sum_nil]
      apply List.sum_eq_zero
      intro x hx
      obtain ⟨k, -, hk⟩ := List.mem_map.mp hx
      simpa using hk.symm
  | cons a t ih =>
      intro K hK hcov
      have step : (K.map (fun k =>
            (((a :: t).filter (fun x => decide (key x = k))).map g).sum)).sum
          = g a + (K.map (fun k =>
            ((t.filter (fun x => decide (key x = k))).map g).sum)).sum := by
        apply sum_map_congr_add K hK (key a) (hcov a (List.mem_cons_self a t))
        · rw [List.filter_cons, if_pos (by simp), List.map_cons, List.sum_cons]
        · intro k hkK hkne
          rw [List.filter_cons, if_neg (by simpa using fun he => hkne he.symm)]
      rw [step, ih K hK (fun x hx => hcov x (List.mem_cons_of_mem a hx)),
        List.map_cons, List.sum_cons]

/-- Claim C1, counterexample: one order whose product has no match in the
product table yields a non-empty fact table whose only row has a missing
category; the daily summary drops it, so the summary revenue (0) misses
the fact revenue (20) by more than the claimed tolerance 1.0. -/
theorem c1_revenue_reconciliation_cex :
    create_fact_orders [oW1] [] [] ≠ [] ∧
    ¬(|((create_daily_sales_summary (create_fact_orders [oW1] [] [])).map
          (·.total_revenue)).sum -
        ((create_fact_orders [oW1] [] []).map (·.item_total)).sum| ≤ 1) := by
  constructor
  · decide
  · have h1 : create_daily_sales_summary (create_fact_orders [oW1] [] []) = [] := by decide
    have h2 : ((create_fact_orders [oW1] [] []).map (·.item_total)).sum = 20 := by decide
    rw [h1, h2, List.map_nil, List.sum_nil]
    norm_num

/-- Claim C1 as amended: for every non-empty fact table in which every
row's `category` is present (every product key matched) and every
`item_total` is a whole-cent amount, the summary revenue reconciles with
the fact revenue exactly, in particular within the tolerance 1.0.  (The
original claim fails because rows with a missing category are dropped by
the `(order_date, category)` grouping: see the counterexample.) -/
theorem c1_revenue_reconciliation_amended (F : List FactRow) (hne : F ≠ [])
    (hcat : ∀ r ∈ F, r.category.isSome) (hcent : ∀ r ∈ F, IsCent r.item_total) :
    ((create_daily_sales_summary F).map (·.total_revenue)).sum =
      (F.map (·.item_total)).sum ∧
    |((create_daily_sales_summary F).map (·.total_revenue)).sum -
      (F.map (·.item_total)).sum| ≤ 1 := by
  have hkept : keptDaily F = F := List.filter_eq_self.mpr (fun r hr => hcat r hr)
  have hmain : ((create_daily_sales_summary F).map (·.total_revenue)).sum =
      (F.map (·.item_total)).sum := by
    unfold create_daily_sales_summary
    rw [hkept, List.map_map]
    refine Eq.trans ?_ (sum_groupby dailyKey (·.item_total) F (F.map dailyKey).dedup
      (List.nodup_dedup _) (fun a ha => List.mem_dedup.mpr (List.mem_map_of_mem _ ha)))
    apply congrArg
    apply List.map_congr_left
    intro k hk
    simp only [Function.comp]
    exact round2_isCent (isCent_sum (fun x hx => by
      obtain ⟨r, hr, hrx⟩ := List.mem_map.mp hx
      exact hrx ▸ hcent r (List.mem_filter.mp hr).1))
  exact ⟨hmain, by rw [hmain, sub_self, abs_zero]; norm_num⟩

/-- A hand-written one-row fact table with its category present and a
whole-cent item total, for the C1 witness. -/
def fW1 : FactRow :=
  { order_id := 1, customer_id := 1, product_id := 1, order_date := 0,
    quantity := 2, unit_price := 10, item_total := 20, status := "completed",
    payment_method := "UPI", discount_amount := 1,
    product_name := some "P1", category := some "Books", brand := some "B1",
    cost := .fin 4, city := some "Pune", age_group := some "18-25",
    customer_segment := some "Regular", gross_profit := .fin 12,
    net_profit := .fin 11, profit_margin := .fin 55,
    revenue_after_discount := 19 }

/-- Witness for the amended C1 at the one-row fact table. -/
theorem c1_revenue_reconciliation_amended_witness :
    ((create_daily_sales_summary [fW1]).map (·.total_revenue)).sum =
      ([fW1].map (·.item_total)).sum :=
  (c1_revenue_reconciliation_amended [fW1] (by simp)
    (fun r hr => by rw [List.mem_singleton.mp hr]; rfl)
    (fun r hr => by rw [List.mem_singleton.mp hr]; exact ⟨2000, by norm_num [fW1]⟩)).1

/-- Third concrete customer, for the three-customer scenario of C3. -/
def cW3 : CustomerRow :=
  { customer_id := 3, name := "C3", email := "c3@x", city := "Mumbai",
    age_group := "36-45", signup_date := 0, customer_segment := "Budget" }

/-- Order giving customer 1 a total spend of 10. -/
def o31 : OrderRow :=
  { order_id := 1, customer_id := 1, product_id := 1, order_date := 0,
    quantity := 1, unit_price := 10, item_total := 10, status := "completed",
    payment_method := "UPI", discount_amount := 0 }

/-- Order giving customer 2 a total spend of 20. -/
def o32 : OrderRow :=
  { order_id := 2, customer_id := 2, product_id := 1, order_date := 0,
    quantity := 2, unit_price := 10, item_total := 20, status := "completed",
    payment_method := "UPI", discount_amount := 0 }

/-- Order giving customer 3 a total spend of 30. -/
def o33 : OrderRow :=
  { order_id := 3, customer_id := 3, product_id := 1, order_date := 0,
    quantity := 3, unit_price := 10, item_total := 30, status := "completed",
    payment_method := "UPI", discount_amount := 0 }

/-- Claim C3, evaluated: with exactly 3 distinct customers (total spends
10, 20, 30) the Customer Analytics Builder raises no error and produces
quartile labels: the five interpolated quantile edges 10, 15, 20, 25, 30
are distinct, so `pd.qcut` succeeds and labels the customers
Low/Medium/Premium.  No insufficient-data error or documented fallback
exists in the code, contradicting the claim. -/
theorem c3_three_customers_eval :
    (create_customer_analytics
        (create_fact_orders [o31, o32, o33] [pW1] [cW1, cW2, cW3])
        [cW1, cW2, cW3]).map (List.map (·.ltv_segment)) =
      Except.ok [Label.Low, Label.Medium, Label.Premium] := by decide

/-- Claim C4, evaluated: on an empty orders table the Fact Builder, the
Daily Summary Builder and the Product Performance Builder all return empty
tables, but the Customer Analytics Builder raises: the quantiles of the
empty `total_spent` series are all NaN, pandas' uniqueness check collapses
them to one edge, and `pd.qcut` raises `ValueError: Bin edges must be
unique` — contradicting the claim that none of the builders errors. -/
theorem c4_empty_orders_eval (ps : List ProductRow) (cs : List CustomerRow) :
    create_fact_orders [] ps cs = [] ∧
    create_daily_sales_summary [] = [] ∧
    create_product_performance [] ps = [] ∧
    create_customer_analytics [] cs = .error "Bin edges must be unique" :=
  ⟨rfl, rfl, rfl, rfl⟩

/-- Claim C8, counterexample: a product with `stock_quantity = 0` gets
`inventory_turnover = +inf` (the IEEE quotient of the positive quantity
sold by zero), which is not the missing-value sentinel NaN — so the value
is neither null nor a missing marker, refuting the claimed sentinel. -/
theorem c8_inventory_turnover_cex :
    ((create_product_performance (create_fact_orders [oW1] [pW1] [cW1]) [pW1]).map
      (·.inventory_turnover)) = [FVal.pinf] ∧ FVal.pinf ≠ FVal.nan := by decide

/-- Claim C8 as amended: for every product performance row whose
`stock_quantity` is 0 and whose quantity sold is positive, the builder
assigns `inventory_turnover = +inf` — a fixed, defined value (no runtime
arithmetic error is raised; the builder is a total function), but not null
nor a documented undefined marker. -/
theorem c8_inventory_turnover_amended (F : List FactRow) (ps : List ProductRow)
    (r : PPRow) (hr : r ∈ create_product_performance F ps)
    (hstock : r.stock_quantity = FVal.fin 0) (hq : 0 < r.total_quantity_sold) :
    r.inventory_turnover = FVal.pinf := by
  unfold create_product_performance at hr
  obtain ⟨x, hx, hxr⟩ := List.mem_map.mp hr
  obtain ⟨y, hy, hyx⟩ := List.mem_map.mp hx
  subst hxr
  subst hyx
  simp only at hstock hq ⊢
  rw [hstock]
  simp [FVal.div, FVal.round2, hq]

/-- The product performance table of the concrete zero-stock pipeline. -/
def ppW : List PPRow :=
  create_product_performance (create_fact_orders [oW1] [pW1] [cW1]) [pW1]

/-- Its first row. -/
def ppW0 : PPRow := ppW.headD default

/-- Witness for the amended C8 at the concrete zero-stock pipeline. -/
theorem c8_inventory_turnover_amended_witness : ppW0.inventory_turnover = FVal.pinf :=
  c8_inventory_turnover_amended (create_fact_orders [oW1] [pW1] [cW1]) [pW1] ppW0
    (by decide) (by decide) (by decide)

/-- Claim C9: the Fact Builder and the three Aggregate Builders are
deterministic pure functions — identical inputs produce identical outputs
(no state is carried across invocations and inputs are never mutated; in
the embedding every builder is a function of its arguments only). -/
theorem c9_builders_deterministic (o1 o2 : List OrderRow) (p1 p2 : List ProductRow)
    (cu1 cu2 : List CustomerRow) (F1 F2 : List FactRow)
    (ho : o1 = o2) (hp : p1 = p2) (hc : cu1 = cu2) (hF : F1 = F2) :
    create_fact_orders o1 p1 cu1 = create_fact_orders o2 p2 cu2 ∧
    create_daily_sales_summary F1 = create_daily_sales_summary F2 ∧
    create_customer_analytics F1 cu1 = create_customer_analytics F2 cu2 ∧
    create_product_performance F1 p1 = create_product_performance F2 p2 := by
  subst ho; subst hp; subst hc; subst hF
  exact ⟨rfl, rfl, rfl, rfl⟩

/-- Witness for C9: two runs on the concrete witness tables coincide. -/
theorem c9_builders_deterministic_witness :
    create_fact_orders [oW1, oW2] [pW1, pW2] [cW1, cW2] =
      create_fact_orders [oW1, oW2] [pW1, pW2] [cW1, cW2] ∧
    create_daily_sales_summary factW = create_daily_sales_summary factW ∧
    create_customer_analytics factW [cW1, cW2] = create_customer_analytics factW [cW1, cW2] ∧
    create_product_performance factW [pW1, pW2] = create_product_performance factW [pW1, pW2] :=
  c9_builders_deterministic [oW1, oW2] [oW1, oW2] [pW1, pW2] [pW1, pW2]
    [cW1, cW2] [cW1, cW2] factW factW rfl rfl rfl rfl

/-- The daily summary is insensitive to rows with a missing category:
they belong to no `(order_date, category)` group. -/
theorem daily_summary_drops_missing_category (F : List FactRow) :
    create_daily_sales_summary F =
      create_daily_sales_summary (F.filter (fun r => r.category.isSome)) := by
  unfold create_daily_sales_summary
  have h : keptDaily (F.filter (fun r => r.category.isSome)) = keptDaily F := by
    unfold keptDaily
    rw [List.filter_filter]
    simp
  rw [h]

/-- The product performance table is insensitive to rows with a missing
category or brand: they belong to no `(product_id, category, brand)`
group. -/
theorem product_performance_drops_missing_keys (F : List FactRow) (ps : List ProductRow) :
    create_product_performance F ps =
      create_product_performance
        (F.filter (fun r => r.category.isSome && r.brand.isSome)) ps := by
  unfold create_product_performance productPerfMerged
  have h : keptPP (F.filter (fun r => r.category.isSome && r.brand.isSome)) = keptPP F := by
    unfold keptPP
    rw [List.filter_filter]
    simp
  rw [h]

/-- Claim C10: a fact row whose `product_id` found no product match
carries missing category and brand, and rows with missing grouping keys
are silently excluded from the daily summary and the product performance
table (grouping keys with missing values form no group), so their revenue
is absent from those aggregates. -/
theorem c10_unmatched_product_excluded
    (orders : List OrderRow) (ps : List ProductRow) (cs : List CustomerRow) :
    (∀ r ∈ create_fact_orders orders ps cs,
      lookupProducts ps r.product_id = [] → r.category = none ∧ r.brand = none) ∧
    (∀ F : List FactRow,
      create_daily_sales_summary F =
        create_daily_sales_summary (F.filter (fun r => r.category.isSome))) ∧
    (∀ (F : List FactRow) (ps2 : List ProductRow),
      create_product_performance F ps2 =
        create_product_performance
          (F.filter (fun r => r.category.isSome && r.brand.isSome)) ps2) := by
  refine ⟨?_, daily_summary_drops_missing_category,
    product_performance_drops_missing_keys⟩
  intro r hr hlook
  unfold create_fact_orders at hr
  obtain ⟨o, ho, h1⟩ := List.mem_flatMap.mp hr
  obtain ⟨p, hp, h2⟩ := List.mem_flatMap.mp h1
  obtain ⟨c, hc, hrc⟩ := List.mem_map.mp h2
  have hpid : r.product_id = o.product_id := by rw [← hrc]; rfl
  rw [hpid] at hlook
  rw [hlook] at hp
  have hpnone : p = none := List.mem_singleton.mp hp
  subst hpnone
  rw [← hrc]
  exact ⟨rfl, rfl⟩

/-- The fact table of an order joined against an empty product table. -/
def factU : List FactRow := create_fact_orders [oW1] [] []

/-- Its first row. -/
def factU0 : FactRow := factU.headD default

/-- Witness for C10: the concrete unmatched row has missing category and
brand. -/
theorem c10_unmatched_product_excluded_witness :
    factU0.category = none ∧ factU0.brand = none :=
  (c10_unmatched_product_excluded [oW1] [] []).1 factU0 (by decide) (by decide)

/-- Strictly fewer elements of `S` exceed a member of `S` than `S` has
elements. -/
theorem card_gt_lt_card {S : Finset ℚ} {v : ℚ} (hv : v ∈ S) :
    (S.filter (fun w => v < w)).card < S.card := by
  have hsub : S.filter (fun w => v < w) ⊆ S.erase v := by
    intro x hx
    rw [Finset.mem_filter] at hx
    exact Finset.mem_erase.mpr ⟨ne_of_gt hx.2, hx.1⟩
  calc (S.filter (fun w => v < w)).card ≤ (S.erase v).card := Finset.card_le_card hsub
    _ < S.card := Finset.card_erase_lt_of_mem hv

/-- The count of strictly greater elements is strictly antitone on `S`. -/
theorem card_gt_anti {S : Finset ℚ} {v w : ℚ} (hv : v ∈ S) (hlt : w < v) :
    (S.filter (fun x => v < x)).card < (S.filter (fun x => w < x)).card := by
  apply Finset.card_lt_card
  rw [Finset.ssubset_iff_of_subset]
  · exact ⟨v, Finset.mem_filter.mpr ⟨hv, hlt⟩,
      fun hc => absurd (Finset.mem_filter.mp hc).2 (lt_irrefl v)⟩
  · intro x hx
    rw [Finset.mem_filter] at hx ⊢
    exact ⟨hx.1, hlt.trans hx.2⟩

/-- The count of strictly greater elements is injective on `S`. -/
theorem card_gt_inj {S : Finset ℚ} {v w : ℚ} (hv : v ∈ S) (hw : w ∈ S)
    (h : (S.filter (fun x => v < x)).card = (S.filter (fun x => w < x)).card) : v = w := by
  rcases lt_trichotomy v w with hlt | he | hgt
  · exact absurd (h ▸ card_gt_anti hw hlt) (lt_irrefl _)
  · exact he
  · exact absurd (h ▸ card_gt_anti hv hgt) (lt_irrefl _)

/-- Every count below `S.card` is attained: the greater-element counts of
the members of `S` cover `{0, …, S.card - 1}`. -/
theorem card_gt_surj {S : Finset ℚ} (i : ℕ) (hi : i < S.card) :
    ∃ v ∈ S, (S.filter (fun x => v < x)).card = i := by
  have hinj : Set.InjOn (fun v => (S.filter (fun x => v < x)).card) S :=
    fun a ha b hb h => card_gt_inj ha hb h
  have hcard : (S.image (fun v => (S.filter (fun x => v < x)).card)).card = S.card :=
    Finset.card_image_of_injOn hinj
  have hsub : S.image (fun v => (S.filter (fun x => v < x)).card) ⊆ Finset.range S.card := by
    intro x hx
    obtain ⟨v, hv, rfl⟩ := Finset.mem_image.mp hx
    exact Finset.mem_range.mpr (card_gt_lt_card hv)
  have heq : S.image (fun v => (S.filter (fun x => v < x)).card) = Finset.range S.card :=
    Finset.eq_of_subset_of_card_le hsub (by rw [hcard, Finset.card_range])
  have hmem : i ∈ S.image (fun v => (S.filter (fun x => v < x)).card) := by
    rw [heq]
    exact Finset.mem_range.mpr hi
  obtain ⟨v, hv, hgv⟩ := Finset.mem_image.mp hmem
  exact ⟨v, hv, hgv⟩

/-- When `v` is the immediate successor of `w` in `S` (nothing of `S`
strictly between), one more element of `S` exceeds `w` than exceeds `v`. -/
theorem card_gt_succ {S : Finset ℚ} {v w : ℚ} (hv : v ∈ S) (hlt : w < v)
    (hno : ∀ z ∈ S, ¬(w < z ∧ z < v)) :
    (S.filter (fun x => w < x)).card = (S.filter (fun x => v < x)).card + 1 := by
  have hins : S.filter (fun x => w < x) = insert v (S.filter (fun x => v < x)) := by
    ext x
    simp only [Finset.mem_filter, Finset.mem_insert]
    constructor
    · rintro ⟨hxS, hwx⟩
      by_cases hxv : x = v
      · exact Or.inl hxv
      · refine Or.inr ⟨hxS, ?_⟩
        rcases lt_trichotomy x v with hlt2 | he | hgt
        · exact absurd ⟨hwx, hlt2⟩ (hno x hxS)
        · exact absurd he hxv
        · exact hgt
    · rintro (rfl | ⟨hxS, hvx⟩)
      · exact ⟨hv, hlt⟩
      · exact ⟨hxS, hlt.trans hvx⟩
  rw [hins, Finset.card_insert_of_not_mem]
  intro hc
  exact absurd (Finset.mem_filter.mp hc).2 (lt_irrefl v)

/-- The distinct-value count over a list's dedup equals the Finset count
over its `toFinset`. -/
theorem countP_dedup_eq_card (vals : List ℚ) (v : ℚ) :
    vals.dedup.countP (fun w => decide (v < w)) =
      (vals.toFinset.filter (fun w => v < w)).card := by
  rw [List.countP_eq_length_filter]
  have h1 : (vals.dedup.filter (fun w => decide (v < w))).toFinset.card
      = (vals.dedup.filter (fun w => decide (v < w))).length :=
    List.toFinset_card_of_nodup ((List.nodup_dedup vals).filter _)
  rw [← h1, List.toFinset_filter]
  have h2 : vals.dedup.toFinset = vals.toFinset := by
    ext x
    simp [List.mem_dedup]
  rw [h2]
  simp

/-- The dense descending rank of a member lies in `{1, …, k}` where `k`
is the number of distinct values. -/
theorem denseRank_mem_range {vals : List ℚ} {v : ℚ} (hv : v ∈ vals) :
    1 ≤ denseRankDesc vals v ∧ denseRankDesc vals v ≤ vals.dedup.length := by
  unfold denseRankDesc
  refine ⟨by omega, ?_⟩
  rw [countP_dedup_eq_card]
  have h1 := card_gt_lt_card (List.mem_toFinset.mpr hv)
  have h2 : vals.toFinset.card = vals.dedup.length := List.card_toFinset vals
  omega

/-- Every rank in `{1, …, k}` is attained by some value of the list. -/
theorem denseRank_surj {vals : List ℚ} {r : ℕ} (h1 : 1 ≤ r)
    (h2 : r ≤ vals.dedup.length) :
    ∃ v ∈ vals, denseRankDesc vals v = r := by
  have hr : r - 1 < vals.toFinset.card := by
    rw [List.card_toFinset]
    omega
  obtain ⟨v, hv, hgv⟩ := card_gt_surj (r - 1) hr
  refine ⟨v, List.mem_toFinset.mp hv, ?_⟩
  unfold denseRankDesc
  rw [countP_dedup_eq_card, hgv]
  omega

/-- Members share a dense rank exactly when they share a value. -/
theorem denseRank_eq_iff {vals : List ℚ} {v w : ℚ} (hv : v ∈ vals) (hw : w ∈ vals) :
    denseRankDesc vals v = denseRankDesc vals w ↔ v = w := by
  constructor
  · intro h
    unfold denseRankDesc at h
    rw [countP_dedup_eq_card, countP_dedup_eq_card] at h
    exact card_gt_inj (List.mem_toFinset.mpr hv) (List.mem_toFinset.mpr hw) (by omega)
  · rintro rfl
    rfl

/-- The next distinct value below receives the immediately following
rank: no gap. -/
theorem denseRank_succ {vals : List ℚ} {v w : ℚ} (hv : v ∈ vals) (hlt : w < v)
    (hno : ∀ z ∈ vals, ¬(w < z ∧ z < v)) :
    denseRankDesc vals w = denseRankDesc vals v + 1 := by
  unfold denseRankDesc
  rw [countP_dedup_eq_card, countP_dedup_eq_card,
    card_gt_succ (List.mem_toFinset.mpr hv) hlt
      (fun z hz => hno z (List.mem_toFinset.mp hz))]
  omega

/-- Deduplication commutes with wrapping rationals as finite floats. -/
theorem map_fin_dedup (f : List ℚ) : (f.map FVal.fin).dedup = f.dedup.map FVal.fin :=
  List.dedup_map_of_injective (fun a b h => by cases h; rfl) f

/-- A NaN-free float column is untouched by the NaN filter of `rank`. -/
theorem filter_ne_nan_map_fin (f : List ℚ) :
    (f.map FVal.fin).filter (fun w => decide (w ≠ FVal.nan)) = f.map FVal.fin := by
  apply List.filter_eq_self.mpr
  intro a ha
  obtain ⟨q, -, rfl⟩ := List.mem_map.mp ha
  simp

/-- On a finite (NaN-free) float column, the float dense rank is the
rational dense rank. -/
theorem denseRankDescF_fin (f : List ℚ) (q : ℚ) :
    denseRankDescF (f.map FVal.fin) (FVal.fin q) = some (denseRankDesc f q) := by
  unfold denseRankDescF denseRankDesc
  rw [if_neg (by simp), filter_ne_nan_map_fin, map_fin_dedup, List.countP_map]
  rfl

/-- A list of finite float values is the image of a rational list. -/
theorem all_fin_exists_list {l : List FVal} (h : ∀ v ∈ l, ∃ q, v = FVal.fin q) :
    ∃ f : List ℚ, l = f.map FVal.fin := by
  induction l with
  | nil => exact ⟨[], rfl⟩
  | cons a t ih =>
      obtain ⟨qa, ha⟩ := h a (List.mem_cons_self a t)
      obtain ⟨f, hf⟩ := ih (fun v hv => h v (List.mem_cons_of_mem a hv))
      exact ⟨qa :: f, by rw [List.map_cons, ← ha, ← hf]⟩

/-- The skip-NaN sum of finite values is finite. -/
theorem fsum_fin {l : List FVal} (h : ∀ v ∈ l, ∃ q, v = FVal.fin q) :
    ∃ q, fsum l = FVal.fin q := by
  induction l with
  | nil => exact ⟨0, rfl⟩
  | cons a t ih =>
      obtain ⟨qa, ha⟩ := h a (List.mem_cons_self a t)
      obtain ⟨qt, ht⟩ := ih (fun v hv => h v (List.mem_cons_of_mem a hv))
      refine ⟨qa + qt, ?_⟩
      have hc : fsum (a :: t) = if a = FVal.nan then fsum t else a.add (fsum t) := rfl
      rw [hc, ha, ht, if_neg (by simp)]
      rfl

/-- A fact row whose category is present came from a matched product, so
its net profit is a finite value. -/
theorem fact_net_fin {orders : List OrderRow} {ps : List ProductRow}
    {cs : List CustomerRow} {r : FactRow}
    (hr : r ∈ create_fact_orders orders ps cs) (hcat : r.category.isSome) :
    ∃ q, r.net_profit = FVal.fin q := by
  obtain ⟨o, p, c, rfl⟩ := mem_fact_shape hr
  cases p with
  | none => simp [mkFactRow] at hcat
  | some pr =>
      exact ⟨(o.unit_price - pr.cost) * o.quantity - o.discount_amount, rfl⟩

/-- In the pipeline, every pre-rank product performance row has a finite
total profit: its group consists of fact rows with matched products. -/
theorem merged_profit_fin (orders : List OrderRow) (ps : List ProductRow)
    (cs : List CustomerRow) (ps2 : List ProductRow) :
    ∀ y ∈ productPerfMerged (create_fact_orders orders ps cs) ps2,
      ∃ q, y.total_profit = FVal.fin q := by
  intro y hy
  unfold productPerfMerged at hy
  obtain ⟨z, hz, rfl⟩ := List.mem_map.mp hy
  obtain ⟨b, hb, hzb⟩ := List.mem_flatMap.mp hz
  have hprof : z.total_profit = b.total_profit := by
    cases hmatch : lookupProducts ps2 b.product_id with
    | nil =>
        rw [hmatch] at hzb
        rw [List.mem_singleton.mp hzb]
    | cons a as =>
        rw [hmatch] at hzb
        obtain ⟨p, -, hzp⟩ := List.mem_map.mp hzb
        rw [← hzp]
  obtain ⟨k, hk, hbk⟩ := List.mem_map.mp hb
  have hbprof : b.total_profit =
      (fsum (((keptPP (create_fact_orders orders ps cs)).filter
        (fun r => decide (ppKey r = k))).map (·.net_profit))).round2 := by
    rw [← hbk]
  have hfin : ∀ v ∈ ((keptPP (create_fact_orders orders ps cs)).filter
      (fun r => decide (ppKey r = k))).map (·.net_profit), ∃ q, v = FVal.fin q := by
    intro v hv
    obtain ⟨fr, hfr, rfl⟩ := List.mem_map.mp hv
    have hfr1 := (List.mem_filter.mp hfr).1
    have hfr2 := List.mem_filter.mp hfr1
    have hcat : fr.category.isSome := by
      have := hfr2.2
      simp only [Bool.and_eq_true] at this
      exact this.1
    exact fact_net_fin hfr2.1 hcat
  obtain ⟨q, hq⟩ := fsum_fin hfin
  refine ⟨round2 q, ?_⟩
  simp only [hprof, hbprof, hq]
  rfl

/-- The rank stage does not change the revenue column. -/
theorem addDenseRanks_map_revenue (M : List PPRow) :
    (addDenseRanks M).map (·.total_revenue) = M.map (·.total_revenue) := by
  unfold addDenseRanks
  rw [List.map_map]
  rfl

/-- The rank stage does not change the profit column. -/
theorem addDenseRanks_map_profit (M : List PPRow) :
    (addDenseRanks M).map (·.total_profit) = M.map (·.total_profit) := by
  unfold addDenseRanks
  rw [List.map_map]
  rfl

/-- A row of the ranked table is a pre-rank row with both dense ranks
filled in against the whole respective column. -/
theorem mem_addDenseRanks {M : List PPRow} {r : PPRow} :
    r ∈ addDenseRanks M ↔ ∃ x ∈ M, r =
      { x with revenue_rank := denseRankDesc (M.map (·.total_revenue)) x.total_revenue
               profit_rank := denseRankDescF (M.map (·.total_profit)) x.total_profit } := by
  unfold addDenseRanks
  rw [List.mem_map]
  constructor
  · rintro ⟨x, hx, h⟩
    exact ⟨x, hx, h.symm⟩
  · rintro ⟨x, hx, h⟩
    exact ⟨x, hx, h.symm⟩

/-- Dense-rank properties of the revenue ranks: the ranks attained are
exactly `{1, …, k}` with `k` the number of distinct revenues, ties share a
rank, and an immediately-next distinct revenue gets the next integer. -/
theorem addDenseRanks_revenue_props (M : List PPRow) :
    (∀ r : ℕ, (∃ row ∈ addDenseRanks M, row.revenue_rank = r) ↔
      (1 ≤ r ∧ r ≤ ((addDenseRanks M).map (·.total_revenue)).dedup.length)) ∧
    (∀ x ∈ addDenseRanks M, ∀ y ∈ addDenseRanks M,
      (x.revenue_rank = y.revenue_rank ↔ x.total_revenue = y.total_revenue)) ∧
    (∀ x ∈ addDenseRanks M, ∀ y ∈ addDenseRanks M, y.total_revenue < x.total_revenue →
      (∀ z ∈ addDenseRanks M, ¬(y.total_revenue < z.total_revenue ∧
        z.total_revenue < x.total_revenue)) →
      y.revenue_rank = x.revenue_rank + 1) := by
  have hcol := addDenseRanks_map_revenue M
  refine ⟨?_, ?_, ?_⟩
  · intro r
    rw [hcol]
    constructor
    · rintro ⟨row, hrow, hrank⟩
      obtain ⟨x, hx, rfl⟩ := mem_addDenseRanks.mp hrow
      have hmem : x.total_revenue ∈ M.map (·.total_revenue) :=
        List.mem_map_of_mem _ hx
      have := denseRank_mem_range hmem
      simp only at hrank
      omega
    · rintro ⟨h1, h2⟩
      obtain ⟨v, hv, hvr⟩ := denseRank_surj h1 h2
      obtain ⟨x, hx, hxv⟩ := List.mem_map.mp hv
      refine ⟨{ x with
          revenue_rank := denseRankDesc (M.map (·.total_revenue)) x.total_revenue
          profit_rank := denseRankDescF (M.map (·.total_profit)) x.total_profit },
        mem_addDenseRanks.mpr ⟨x, hx, rfl⟩, ?_⟩
      simp only
      rw [hxv, hvr]
  · intro x hx y hy
    obtain ⟨a, ha, rfl⟩ := mem_addDenseRanks.mp hx
    obtain ⟨b, hb, rfl⟩ := mem_addDenseRanks.mp hy
    simp only
    exact denseRank_eq_iff (List.mem_map_of_mem _ ha) (List.mem_map_of_mem _ hb)
  · intro x hx y hy hlt hno
    obtain ⟨a, ha, rfl⟩ := mem_addDenseRanks.mp hx
    obtain ⟨b, hb, rfl⟩ := mem_addDenseRanks.mp hy
    simp only at hlt ⊢
    refine denseRank_succ (List.mem_map_of_mem _ ha) hlt ?_
    intro z hz
    obtain ⟨c, hc, hcz⟩ := List.mem_map.mp hz
    have := hno { c with
        revenue_rank := denseRankDesc (M.map (·.total_revenue)) c.total_revenue
        profit_rank := denseRankDescF (M.map (·.total_profit)) c.total_profit }
      (mem_addDenseRanks.mpr ⟨c, hc, rfl⟩)
    simp only at this
    rw [hcz] at this
    exact this

/-- Dense-rank properties of the profit ranks, on tables whose profit
column is NaN-free (as the pipeline produces): the attained ranks are
exactly `{1, …, k}` with `k` the number of distinct profits, ties share a
rank, and an immediately-next distinct profit gets the next integer. -/
theorem addDenseRanks_profit_props (M : List PPRow)
    (hfin : ∀ y ∈ M, ∃ q, y.total_profit = FVal.fin q) :
    (∀ r : ℕ, (∃ row ∈ addDenseRanks M, row.profit_rank = some r) ↔
      (1 ≤ r ∧ r ≤ ((addDenseRanks M).map (·.total_profit)).dedup.length)) ∧
    (∀ x ∈ addDenseRanks M, ∀ y ∈ addDenseRanks M,
      (x.profit_rank = y.profit_rank ↔ x.total_profit = y.total_profit)) ∧
    (∀ x ∈ addDenseRanks M, ∀ y ∈ addDenseRanks M,
      FVal.flt y.total_profit x.total_profit = true →
      (∀ z ∈ addDenseRanks M, ¬(FVal.flt y.total_profit z.total_profit = true ∧
        FVal.flt z.total_profit x.total_profit = true)) →
      ∃ n, x.profit_rank = some n ∧ y.profit_rank = some (n + 1)) := by
  have hcol := addDenseRanks_map_profit M
  have hfin' : ∀ v ∈ M.map (·.total_profit), ∃ q, v = FVal.fin q := by
    intro v hv
    obtain ⟨x, hx, rfl⟩ := List.mem_map.mp hv
    exact hfin x hx
  obtain ⟨f, hf⟩ := all_fin_exists_list hfin'
  have hmemf : ∀ c ∈ M, ∀ qc : ℚ, c.total_profit = FVal.fin qc → qc ∈ f := by
    intro c hc qc hqc
    have hm : c.total_profit ∈ M.map (·.total_profit) := List.mem_map_of_mem _ hc
    rw [hf, hqc] at hm
    obtain ⟨q2, hq2, he⟩ := List.mem_map.mp hm
    injection he with h2
    exact h2 ▸ hq2
  have hk : ((addDenseRanks M).map (·.total_profit)).dedup.length = f.dedup.length := by
    rw [hcol, hf, map_fin_dedup, List.length_map]
  refine ⟨?_, ?_, ?_⟩
  · intro r
    rw [hk]
    constructor
    · rintro ⟨row, hrow, hrank⟩
      obtain ⟨x, hx, rfl⟩ := mem_addDenseRanks.mp hrow
      obtain ⟨qx, hqx⟩ := hfin x hx
      simp only at hrank
      rw [hf, hqx, denseRankDescF_fin] at hrank
      have heq : denseRankDesc f qx = r := Option.some.inj hrank
      have hb := denseRank_mem_range (hmemf x hx qx hqx)
      rw [heq] at hb
      exact hb
    · rintro ⟨h1, h2⟩
      obtain ⟨q, hq, hqr⟩ := denseRank_surj h1 h2
      have hm : FVal.fin q ∈ M.map (·.total_profit) := by
        rw [hf]
        exact List.mem_map_of_mem _ hq
      obtain ⟨x, hx, hxq⟩ := List.mem_map.mp hm
      refine ⟨{ x with
          revenue_rank := denseRankDesc (M.map (·.total_revenue)) x.total_revenue
          profit_rank := denseRankDescF (M.map (·.total_profit)) x.total_profit },
        mem_addDenseRanks.mpr ⟨x, hx, rfl⟩, ?_⟩
      simp only
      rw [hf, hxq, denseRankDescF_fin, hqr]
  · intro x hx y hy
    obtain ⟨a, ha, rfl⟩ := mem_addDenseRanks.mp hx
    obtain ⟨b, hb, rfl⟩ := mem_addDenseRanks.mp hy
    obtain ⟨qa, hqa⟩ := hfin a ha
    obtain ⟨qb, hqb⟩ := hfin b hb
    constructor
    · intro h
      simp only at h ⊢
      rw [hf, hqa, hqb, denseRankDescF_fin, denseRankDescF_fin] at h
      have h2 : denseRankDesc f qa = denseRankDesc f qb := Option.some.inj h
      have h3 : qa = qb :=
        (denseRank_eq_iff (hmemf a ha qa hqa) (hmemf b hb qb hqb)).mp h2
      rw [hqa, hqb, h3]
    · intro h
      simp only at h ⊢
      rw [hqa, hqb] at h
      injection h with h2
      rw [hf, hqa, hqb, h2]
  · intro x hx y hy hlt hno
    obtain ⟨a, ha, rfl⟩ := mem_addDenseRanks.mp hx
    obtain ⟨b, hb, rfl⟩ := mem_addDenseRanks.mp hy
    obtain ⟨qa, hqa⟩ := hfin a ha
    obtain ⟨qb, hqb⟩ := hfin b hb
    simp only at hlt ⊢
    rw [hqa, hqb] at hlt
    have hltq : qb < qa := by
      simpa [FVal.flt] using hlt
    have hno' : ∀ z ∈ f, ¬(qb < z ∧ z < qa) := by
      intro z hz
      have hm : FVal.fin z ∈ M.map (·.total_profit) := by
        rw [hf]
        exact List.mem_map_of_mem _ hz
      obtain ⟨c, hc, hcz⟩ := List.mem_map.mp hm
      have hnoc := hno { c with
          revenue_rank := denseRankDesc (M.map (·.total_revenue)) c.total_revenue
          profit_rank := denseRankDescF (M.map (·.total_profit)) c.total_profit }
        (mem_addDenseRanks.mpr ⟨c, hc, rfl⟩)
      simp only at hnoc
      rw [hqa, hqb, hcz] at hnoc
      simpa [FVal.flt] using hnoc
    have hsucc := denseRank_succ (hmemf a ha qa hqa) hltq hno'
    refine ⟨denseRankDesc f qa, ?_, ?_⟩
    · rw [hf, hqa, denseRankDescF_fin]
    · rw [hf, hqb, denseRankDescF_fin, hsucc]

/-- The transform pipeline's product performance table: the Product
Performance Builder applied to the Fact Builder's output and the product
master table, as `main()` composes them. -/
def productPerformanceOf (orders : List OrderRow) (ps : List ProductRow)
    (cs : List CustomerRow) : List PPRow :=
  create_product_performance (create_fact_orders orders ps cs) ps

/-- Claim C5: in every product performance table produced by the pipeline,
the set of assigned revenue ranks is exactly `{1, …, k}` with `k` the
number of distinct revenue values (first conjunct), equal revenues share
one rank (second), and the next distinct revenue receives the immediately
following integer with no gap (third); the fourth through sixth conjuncts
state the same for the profit ranks (every pipeline profit is finite, so
every row receives a profit rank). -/
theorem c5_dense_rank_properties (orders : List OrderRow) (ps : List ProductRow)
    (cs : List CustomerRow) :
    (∀ r : ℕ, (∃ row ∈ productPerformanceOf orders ps cs, row.revenue_rank = r) ↔
      (1 ≤ r ∧ r ≤ ((productPerformanceOf orders ps cs).map
        (·.total_revenue)).dedup.length)) ∧
    (∀ x ∈ productPerformanceOf orders ps cs, ∀ y ∈ productPerformanceOf orders ps cs,
      (x.revenue_rank = y.revenue_rank ↔ x.total_revenue = y.total_revenue)) ∧
    (∀ x ∈ productPerformanceOf orders ps cs, ∀ y ∈ productPerformanceOf orders ps cs,
      y.total_revenue < x.total_revenue →
      (∀ z ∈ productPerformanceOf orders ps cs,
        ¬(y.total_revenue < z.total_revenue ∧ z.total_revenue < x.total_revenue)) →
      y.revenue_rank = x.revenue_rank + 1) ∧
    (∀ r : ℕ, (∃ row ∈ productPerformanceOf orders ps cs, row.profit_rank = some r) ↔
      (1 ≤ r ∧ r ≤ ((productPerformanceOf orders ps cs).map
        (·.total_profit)).dedup.length)) ∧
    (∀ x ∈ productPerformanceOf orders ps cs, ∀ y ∈ productPerformanceOf orders ps cs,
      (x.profit_rank = y.profit_rank ↔ x.total_profit = y.total_profit)) ∧
    (∀ x ∈ productPerformanceOf orders ps cs, ∀ y ∈ productPerformanceOf orders ps cs,
      FVal.flt y.total_profit x.total_profit = true →
      (∀ z ∈ productPerformanceOf orders ps cs,
        ¬(FVal.flt y.total_profit z.total_profit = true ∧
          FVal.flt z.total_profit x.total_profit = true)) →
      ∃ n, x.profit_rank = some n ∧ y.profit_rank = some (n + 1)) := by
  have hrev := addDenseRanks_revenue_props
    (productPerfMerged (create_fact_orders orders ps cs) ps)
  have hprof := addDenseRanks_profit_props
    (productPerfMerged (create_fact_orders orders ps cs) ps)
    (merged_profit_fin orders ps cs ps)
  exact ⟨hrev.1, hrev.2.1, hrev.2.2, hprof.1, hprof.2.1, hprof.2.2⟩

/-- The concrete two-product performance table for the C5 witness. -/
def ppWit : List PPRow := productPerformanceOf [oW1, oW2] [pW1, pW2] [cW1, cW2]

/-- Its first row (product 1: revenue 20, rank 2 of 2; profit 11,
rank 2 of 2). -/
def ppWit0 : PPRow := ppWit.headD default

/-- Witness for C5 at the concrete two-product pipeline: the first row's
revenue rank and the attained profit rank 2 lie within `{1, …, k}`. -/
theorem c5_dense_rank_properties_witness :
    (1 ≤ ppWit0.revenue_rank ∧
      ppWit0.revenue_rank ≤ ((ppWit.map (·.total_revenue)).dedup.length)) ∧
    (1 ≤ 2 ∧ 2 ≤ ((ppWit.map (·.total_profit)).dedup.length)) :=
  ⟨((c5_dense_rank_properties [oW1, oW2] [pW1, pW2] [cW1, cW2]).1
      ppWit0.revenue_rank).mp ⟨ppWit0, by decide, rfl⟩,
   ((c5_dense_rank_properties [oW1, oW2] [pW1, pW2] [cW1, cW2]).2.2.2.1 2).mp
      ⟨ppWit0, by decide, by decide⟩⟩

end Verification

end ECom
